import Mathlib

/-!
Verification of the short-link resolution and click-accounting engine of the
`shortly` repository against its specification.  The TypeScript source
(`server/src/models/shortened-url.ts`, `server/src/controllers/url-controller.ts`,
`server/src/services/redis.service.ts`, and the knex migrations) is shallowly
embedded: the Postgres tables become lists of records, the Redis cache becomes
association lists, asynchronous effects become explicit state passing, and the
ambient sources of nondeterminism (random bytes, the wall clock, Redis or
database outages) become explicit parameters.  The unbounded recursion of
`createShortenedUrl` is embedded with a fuel parameter: `none` means the call
has not terminated within the given fuel.
-/

namespace Shortly

/-! ## Data model (`models/shortened-url.ts` interfaces and the migrations) -/

/-- A row of the `shortened_urls` table (interface `ShortenedUrl`).
Timestamps are modelled as integer milliseconds, ids as naturals
(the uuid generation order of the database). -/
structure UrlRecord where
  id : Nat
  original_url : String
  short_code : String
  user_id : Option String
  expires_at : Option Int
  createdAt : Int
  updatedAt : Int
deriving DecidableEq, Repr

/-- A row of the `url_clicks` table (interface `UrlClick`). -/
structure UrlClick where
  id : Nat
  shortened_url_id : Nat
  clicked_at : Int
  user_agent : Option String
  ip_address : Option String
deriving DecidableEq, Repr

/-- Input of `createShortenedUrl` (interface `CreateShortenedUrlInput`). -/
structure CreateShortenedUrlInput where
  original_url : String
  user_id : Option String
  custom_code : Option String
  expires_in_days : Option Int
deriving DecidableEq, Repr

/-- An entry of a Redis counter key.  `hasTtl` records whether the key was
created with an expiry (`SET` with `EX`, as `RedisService.set` does) or
without one (as `INCRBY` does when the key is absent). -/
structure CounterEntry where
  value : Int
  hasTtl : Bool
deriving DecidableEq, Repr

/-- The Redis cache: `url:{code}` keys holding serialized records and
`clicks:{id}` keys holding counters, kept as separate association lists. -/
structure Cache where
  urls : List (String × UrlRecord)
  counters : List (String × CounterEntry)
deriving DecidableEq, Repr

/-- The durable Postgres store: the `shortened_urls` and `url_clicks` tables
plus the id-generation state. -/
structure Db where
  urls : List UrlRecord
  clicks : List UrlClick
  nextUrlId : Nat
  nextClickId : Nat
deriving DecidableEq, Repr

/-- The whole mutable state the engine acts on. -/
structure SysState where
  db : Db
  cache : Cache
deriving DecidableEq, Repr

def emptyDb : Db := { urls := [], clicks := [], nextUrlId := 0, nextClickId := 0 }

def emptyCache : Cache := { urls := [], counters := [] }

def emptySysState : SysState := { db := emptyDb, cache := emptyCache }

/-! ## Association-list primitives for the cache -/

def alistGet {α : Type} (k : String) (l : List (String × α)) : Option α :=
  (l.find? fun p => p.1 == k).map Prod.snd

def alistSet {α : Type} (k : String) (v : α) (l : List (String × α)) :
    List (String × α) :=
  (k, v) :: l.filter fun p => p.1 != k

def alistDel {α : Type} (k : String) (l : List (String × α)) :
    List (String × α) :=
  l.filter fun p => p.1 != k

/-! ## The code generator (`generateShortCode`) -/

/-- The standard base64 alphabet, as used by Node's
`Buffer.toString("base64")`. -/
def base64Chars : List Char :=
  "ABCDEFGHIJKLMNOPQRSTUVWXYZabcdefghijklmnopqrstuvwxyz0123456789+/".toList

def b64Char (n : Nat) : Char := base64Chars.getD n 'A'

/-- Standard base64 encoding with `=` padding of a byte list
(each entry `< 256`), as `Buffer.toString("base64")` produces. -/
def base64Encode : List Nat → List Char
  | [] => []
  | [a] => [b64Char (a / 4), b64Char (a % 4 * 16), '=', '=']
  | [a, b] =>
      [b64Char (a / 4), b64Char (a % 4 * 16 + b / 16), b64Char (b % 16 * 4), '=']
  | a :: b :: c :: rest =>
      b64Char (a / 4) :: b64Char (a % 4 * 16 + b / 16) ::
      b64Char (b % 16 * 4 + c / 64) :: b64Char (c % 64) :: base64Encode rest

/-- Number of random bytes drawn by `generateShortCode`:
`Math.ceil((length * 3) / 4)`. -/
def randomBytesLen (length : Nat) : Nat := (length * 3 + 3) / 4

/-- Function `generateShortCode` from `models/shortened-url.ts`:
`randomBytes(Math.ceil((length * 3) / 4)).toString("base64").replace(/[+/]/g, "").slice(0, length)`.
The ambient `randomBytes` draw is passed in as the explicit `bytes` argument. -/
def generateShortCode (bytes : List Nat) (length : Nat) : String :=
  String.mk (((base64Encode bytes).filter fun c => c != '+' && c != '/').take length)

/-! ## Time and expiry helpers -/

def msPerDay : Int := 86400000

/-- Function `isUrlExpired` from `models/shortened-url.ts`: a record with no
`expires_at` never expires; otherwise expired when `now > expiryDate`
(strict). -/
def isUrlExpired (url : UrlRecord) (now : Int) : Bool :=
  match url.expires_at with
  | none => false
  | some e => e < now

/-- The SQL predicate of `createShortenedUrl`'s first query:
`expires_at IS NULL OR expires_at > now` (a non-expired row). -/
def rowActiveAt (now : Int) (u : UrlRecord) : Bool :=
  match u.expires_at with
  | none => true
  | some e => now < e

/-- The SQL predicate of `createShortenedUrl`'s second query:
`expires_at <= now` (an expired row; `NULL` does not match). -/
def rowExpiredAt (now : Int) (u : UrlRecord) : Bool :=
  match u.expires_at with
  | none => false
  | some e => e ≤ now

/-! ## Durable store queries (knex `.where(...).first()`) -/

def dbFindActiveByCode (code : String) (now : Int) (db : Db) : Option UrlRecord :=
  db.urls.find? fun u => u.short_code == code && rowActiveAt now u

def dbFindExpiredByCode (code : String) (now : Int) (db : Db) : Option UrlRecord :=
  db.urls.find? fun u => u.short_code == code && rowExpiredAt now u

def dbFindByCode (code : String) (db : Db) : Option UrlRecord :=
  db.urls.find? fun u => u.short_code == code

def dbFindById (id : Nat) (db : Db) : Option UrlRecord :=
  db.urls.find? fun u => u.id == id

/-! ## Redis service operations (`services/redis.service.ts`), success path.
Where the source wraps calls in try/catch, the possibility of a Redis
outage is injected as an explicit flag at the call site. -/

def urlKey (code : String) : String := "url:" ++ code

def clickKey (id : Nat) : String := "clicks:" ++ toString id

def redisGetUrl (code : String) (c : Cache) : Option UrlRecord :=
  alistGet (urlKey code) c.urls

def redisSetUrl (code : String) (u : UrlRecord) (c : Cache) : Cache :=
  { c with urls := alistSet (urlKey code) u c.urls }

def redisDelUrl (code : String) (c : Cache) : Cache :=
  { c with urls := alistDel (urlKey code) c.urls }

/-- Method `RedisService.increment` (`client.incrBy`): an absent key is created
implicitly starting from 0, with no TTL attached. -/
def redisIncrement (key : String) (c : Cache) : Int × Cache :=
  match alistGet key c.counters with
  | some e =>
      (e.value + 1,
       { c with counters := alistSet key { e with value := e.value + 1 } c.counters })
  | none =>
      (1, { c with counters := alistSet key { value := 1, hasTtl := false } c.counters })

/-- Method `RedisService.exists` (`client.exists`). -/
def redisCounterKeyPresent (key : String) (c : Cache) : Bool :=
  (alistGet key c.counters).isSome

/-- Method `RedisService.set` on a counter key: `client.set(key, v, { EX: ttl })`,
always attaching the TTL policy. -/
def redisSetCounter (key : String) (v : Int) (c : Cache) : Cache :=
  { c with counters := alistSet key { value := v, hasTtl := true } c.counters }

/-! ## The link allocator (`createShortenedUrl`) -/

/-- JS `x || null` on an optional string: the empty string is falsy. -/
def jsOrNull : Option String → Option String
  | some s => if s == "" then none else some s
  | none => none

/-- Expiry computed by `createShortenedUrl`:
`input.expires_in_days && input.expires_in_days > 0 ? now + d days : null`.
The insert branch adds calendar days via `setDate`; both branches are
modelled as fixed 24-hour days. -/
def newExpiresAt (input : CreateShortenedUrlInput) (now : Int) : Option Int :=
  match input.expires_in_days with
  | some d => if 0 < d then some (now + d * msPerDay) else none
  | none => none

/-- The candidate code of one allocation attempt:
`input.custom_code || generateShortCode()`, with the generated codes
supplied by the stream `gen` at index `gi`. -/
def allocCandidate (gen : Nat → String) (gi : Nat)
    (input : CreateShortenedUrlInput) : String :=
  match jsOrNull input.custom_code with
  | some c => c
  | none => gen gi

/-- The update payload of the expired-overwrite branch: same row (same `id`,
same `short_code`, same `createdAt`), new target URL, owner, expiration and
`updatedAt`. -/
def updatedRecord (ex : UrlRecord) (input : CreateShortenedUrlInput)
    (now : Int) : UrlRecord :=
  { ex with
    original_url := input.original_url
    user_id := jsOrNull input.user_id
    expires_at := newExpiresAt input now
    updatedAt := now }

/-- The row inserted by the fresh-insert branch. -/
def insertedRecord (code : String) (input : CreateShortenedUrlInput)
    (now : Int) (idv : Nat) : UrlRecord :=
  { id := idv
    original_url := input.original_url
    short_code := code
    user_id := jsOrNull input.user_id
    expires_at := newExpiresAt input now
    createdAt := now
    updatedAt := now }

/-- SQL `UPDATE shortened_urls SET ... WHERE id = r.id` with the new row `r`. -/
def dbUpdateRecord (r : UrlRecord) (db : Db) : Db :=
  { db with urls := db.urls.map fun u => if u.id == r.id then r else u }

inductive CreateError
  | codeConflict (code : String)
deriving DecidableEq, Repr

inductive CreateResult
  | ok (record : UrlRecord) (st : SysState)
  | err (e : CreateError)
deriving DecidableEq, Repr

/-- Function `createShortenedUrl` from `models/shortened-url.ts`.  The source recurses
on itself whenever the generated candidate collides with a non-expired row;
the recursion is embedded with a `fuel` bound, `none` meaning the call has
not terminated within `fuel` attempts.  `gen` is the stream of codes the
ambient `generateShortCode()` calls would produce, `gi` the index of the
next draw. -/
def createShortenedUrl (fuel : Nat) (gen : Nat → String) (gi : Nat)
    (input : CreateShortenedUrlInput) (now : Int) (st : SysState) :
    Option CreateResult :=
  match fuel with
  | 0 => none
  | fuel + 1 =>
    let code := allocCandidate gen gi input
    match dbFindActiveByCode code now st.db with
    | some _ =>
      match jsOrNull input.custom_code with
      | some c => some (.err (.codeConflict c))
      | none => createShortenedUrl fuel gen (gi + 1) input now st
    | none =>
      match dbFindExpiredByCode code now st.db with
      | some ex =>
        let r := updatedRecord ex input now
        let db1 := dbUpdateRecord r st.db
        let cache1 := redisDelUrl code st.cache
        let cache2 := redisSetUrl code r cache1
        some (.ok r { db := db1, cache := cache2 })
      | none =>
        let r := insertedRecord code input now st.db.nextUrlId
        let db1 := { st.db with
          urls := st.db.urls ++ [r]
          nextUrlId := st.db.nextUrlId + 1 }
        let cache1 := redisSetUrl code r st.cache
        some (.ok r { db := db1, cache := cache1 })

/-! ## The resolver (`getShortenedUrlByCode`), success path: cache first,
durable store on miss with repopulation.  The function takes no clock:
it performs no expiry filtering. -/

def getShortenedUrlByCode (code : String) (st : SysState) :
    Option UrlRecord × SysState :=
  match redisGetUrl code st.cache with
  | some u => (some u, st)
  | none =>
    match dbFindByCode code st.db with
    | some u => (some u, { st with cache := redisSetUrl code u st.cache })
    | none => (none, st)

/-! ## The click accountant (`logUrlClick`) -/

/-- Ambient failure injection for one `logUrlClick` call: `redisFails` makes
the try/catch-wrapped Redis block throw (caught and logged by the source),
`dbFails` makes the durable insert fail (propagated by the source). -/
structure ClickEnv where
  redisFails : Bool
  dbFails : Bool
deriving DecidableEq, Repr

inductive ClickOutcome
  | ok
  | storeFailure
deriving DecidableEq, Repr

/-- Effect 1 of `logUrlClick`, exactly in source order: increment the
counter, then check existence, then `set(key, 1)` only when the key is
absent.  The returned flag records whether that `set` was executed. -/
def clickEffect1 (key : String) (c : Cache) : Cache × Bool :=
  let c1 := (redisIncrement key c).2
  if redisCounterKeyPresent key c1 then (c1, false)
  else (redisSetCounter key 1 c1, true)

/-- Function `logUrlClick` from `models/shortened-url.ts`: best-effort cache counter
update (Effect 1, swallowing Redis errors), then the durable insert into
`url_clicks` (Effect 2).  Returns the outcome, the new state, and whether
Effect 1's explicit `set` ran. -/
def logUrlClick (env : ClickEnv) (shortened_url_id : Nat)
    (ua ip : Option String) (now : Int) (st : SysState) :
    ClickOutcome × SysState × Bool :=
  let e1 :=
    if env.redisFails then (st.cache, false)
    else clickEffect1 (clickKey shortened_url_id) st.cache
  let st1 : SysState := { st with cache := e1.1 }
  if env.dbFails then (.storeFailure, st1, e1.2)
  else
    let click : UrlClick :=
      { id := st1.db.nextClickId
        shortened_url_id := shortened_url_id
        clicked_at := now
        user_agent := ua
        ip_address := ip }
    (.ok,
     { st1 with db := { st1.db with
         clicks := st1.db.clicks ++ [click]
         nextClickId := st1.db.nextClickId + 1 } },
     e1.2)

/-! ## Deletion (`deleteShortenedUrl`) with the `url_clicks`
`ON DELETE CASCADE` foreign key from the migration. -/

def deleteShortenedUrl (id : Nat) (st : SysState) : Bool × SysState :=
  match dbFindById id st.db with
  | none => (false, st)
  | some url =>
    let urls2 := st.db.urls.filter fun u => u.id != id
    let clicks2 := st.db.clicks.filter fun c => c.shortened_url_id != id
    if st.db.urls.length - urls2.length > 0 then
      (true,
       { db := { st.db with urls := urls2, clicks := clicks2 }
         cache := redisDelUrl url.short_code st.cache })
    else (false, st)

/-! ## The analytics aggregator (`getDailyClickCounts`).  Dates are modelled
as integer day numbers; `clicked_at` timestamps are floored to their day.
The SQL `generate_series(startDate, today, 1 day)` with
`startDate = today - days + 1`, LEFT JOINed against `url_clicks`, grouped
and ordered ascending. -/

def dateOfMs (t : Int) : Int := Int.fdiv t msPerDay

def clicksOnDay (clicks : List UrlClick) (linkId : Nat) (d : Int) : Nat :=
  (clicks.filter fun c =>
    c.shortened_url_id == linkId && dateOfMs c.clicked_at == d).length

def getDailyClickCounts (linkId : Nat) (days : Nat) (today : Int) (db : Db) :
    List (Int × Nat) :=
  (List.range days).map fun (i : Nat) =>
    (today - (days : Int) + 1 + (i : Int),
     clicksOnDay db.clicks linkId (today - (days : Int) + 1 + (i : Int)))

/-! ## Controllers (`controllers/url-controller.ts`) -/

/-- The request body of `POST /` as destructured by `createUrl`.
`expires_in_days` is modelled already numeric (the `Number()`/`isNaN`
branch for non-numeric bodies is not exercised by any claim). -/
structure CreateUrlRequestBody where
  original_url : Option String
  user_id : Option String
  custom_code : Option String
  expires_in_days : Option Int
deriving DecidableEq, Repr

inductive CreateUrlResponse
  | badRequest (msg : String)
  | conflict (record_code : String)
  | created (record : UrlRecord)
deriving DecidableEq, Repr

/-- Controller `createUrl`: validates `original_url` (presence and well-formedness via
the ambient WHATWG parser, passed in as `urlValid`) and `expires_in_days`
(non-negative, at most 365), then calls `createShortenedUrl`; a
`codeConflict` error maps to 409 and success to 201.  Note the JS
truthiness of `expires_in_days ? Number(expires_in_days) : undefined`:
a zero value is forwarded as absent.  No check whatsoever is applied to
`custom_code` before the model call. -/
def createUrl (urlValid : String → Bool) (fuel : Nat) (gen : Nat → String)
    (body : CreateUrlRequestBody) (now : Int) (st : SysState) :
    Option (CreateUrlResponse × SysState) :=
  match body.original_url with
  | none => some (.badRequest "Original URL is required", st)
  | some u =>
    if u == "" then some (.badRequest "Original URL is required", st)
    else if !urlValid u then some (.badRequest "Invalid URL format", st)
    else
      let daysOk := match body.expires_in_days with
        | some d => if d < 0 then false else if 365 < d then false else true
        | none => true
      if !daysOk then
        some (.badRequest "Expiration days out of range", st)
      else
        let input : CreateShortenedUrlInput :=
          { original_url := u
            user_id := body.user_id
            custom_code := body.custom_code
            expires_in_days := match body.expires_in_days with
              | some d => if d == 0 then none else some d
              | none => none }
        match createShortenedUrl fuel gen 0 input now st with
        | none => none
        | some (.err (.codeConflict c)) => some (.conflict c, st)
        | some (.ok r st2) => some (.created r, st2)

inductive GetUrlResponse
  | notFound
  | gone (record : UrlRecord)
  | ok (record : UrlRecord)
deriving DecidableEq, Repr

/-- Controller `getUrlByCode`: resolve through `getShortenedUrlByCode`; 404 when
absent, 410 (`Gone`, with `expired: true`) when the returned record is
expired per `isUrlExpired`, 200 otherwise. -/
def getUrlByCode (code : String) (now : Int) (st : SysState) :
    GetUrlResponse × SysState :=
  match getShortenedUrlByCode code st with
  | (none, st1) => (.notFound, st1)
  | (some u, st1) =>
    if isUrlExpired u now then (.gone u, st1) else (.ok u, st1)

/-- JS `s.startsWith(p)`: `p` is an initial segment of `s`. -/
def jsStartsWith (s p : String) : Bool :=
  s.toList.take p.toList.length == p.toList

inductive RedirectResponse
  | apiNotFound
  | notFoundPage
  | expiredPage (record : UrlRecord)
  | redirect (target : String)
  | failed
deriving DecidableEq, Repr

/-- Controller `redirectToUrl`: the reserved-path guard (`code.startsWith("api") ||
code === "favicon.ico"`) returns 404 before any store access; otherwise
resolve, 404 page when absent, 410 page when expired, else log the click
and redirect to the record's target URL (requests without query parameters
are modelled, so no UTM merging occurs).  The final component of the result
records whether the Cache or Durable Store was consulted. -/
def redirectToUrl (env : ClickEnv) (code : String) (ua ip : Option String)
    (now : Int) (st : SysState) : RedirectResponse × SysState × Bool :=
  if jsStartsWith code "api" || code == "favicon.ico" then
    (.apiNotFound, st, false)
  else
    match getShortenedUrlByCode code st with
    | (none, st1) => (.notFoundPage, st1, true)
    | (some u, st1) =>
      if isUrlExpired u now then (.expiredPage u, st1, true)
      else
        match logUrlClick env u.id ua ip now st1 with
        | (.storeFailure, st2, _) => (.failed, st2, true)
        | (.ok, st2, _) => (.redirect u.original_url, st2, true)

/-- Controller `getUrlAnalytics`: validates `1 ≤ days ≤ 30`, then returns the daily
buckets from `getDailyClickCounts`. -/
def getUrlAnalytics (id : Nat) (days : Int) (today : Int) (db : Db) :
    Option (List (Int × Nat)) :=
  if days < 1 || 30 < days then none
  else some (getDailyClickCounts id days.toNat today db)

/-! ## Concrete scenarios used by the claim theorems -/

/-- Six `0xFF` bytes: a possible draw of `randomBytes(6)`, whose base64
encoding is `"////////"`. -/
def c7Bytes : List Nat := List.replicate 6 255

def c1Body : CreateUrlRequestBody :=
  { original_url := some "http://example.com"
    user_id := none
    custom_code := some "ab"
    expires_in_days := none }

def c1Record : UrlRecord :=
  { id := 0
    original_url := "http://example.com"
    short_code := "ab"
    user_id := none
    expires_at := none
    createdAt := 0
    updatedAt := 0 }

def c1State : SysState :=
  { db := { urls := [c1Record], clicks := [], nextUrlId := 1, nextClickId := 0 }
    cache := { urls := [(urlKey "ab", c1Record)], counters := [] } }

/-! ## Claim theorems -/

/-- Claim C7 (code bug): `generateShortCode` is specified to return a string
of exactly `length` alphanumeric characters, but stripping `+` and `/` from
the base64 encoding can leave fewer characters than requested.  With the
default length 8 the source draws `Math.ceil(8*3/4) = 6` random bytes; if
the draw is six `0xFF` bytes the base64 encoding is `"////////"` and the
returned code is the empty string. -/
theorem C7_generateShortCode_can_return_fewer_chars :
    c7Bytes.length = randomBytesLen 8 ∧ generateShortCode c7Bytes 8 = "" := by
  constructor
  · rfl
  · rfl

/-- Claim C1 (code bug): the server-side allocate path performs no
validation of the requested code: `createUrl` forwards `custom_code`
unchecked to `createShortenedUrl`, so the two-character code `"ab"`
(shorter than the 3-character minimum enforced by the client UI and
required by the spec) is accepted against an empty store, the durable
store is read and written, and a record with `short_code = "ab"` is
created and returned with 201 — not rejected as a caller-input error. -/
theorem C1_short_custom_code_accepted_and_stored :
    "ab".length < 3 ∧
    createUrl (fun _ => true) 1 (fun _ => "ZZZZZZZZ") c1Body 0 emptySysState =
      some (.created c1Record, c1State) ∧
    c1State.db.urls = [c1Record] := by
  refine ⟨by decide, ?_, rfl⟩
  rfl

/-- Claim C8 (code bug): `logUrlClick` increments the Redis counter first
and only then checks `exists`; since `INCRBY` creates an absent key, the
existence check always succeeds and the explicit `set`-with-TTL
initialization is dead code.  For a link whose counter key is absent the
counter ends up created by the increment-from-zero default with no TTL,
and the `set` branch is never executed. -/
theorem C8_counter_initialized_by_increment_not_set :
    (logUrlClick { redisFails := false, dbFails := false } 1 none none 0
        emptySysState).2.2 = false ∧
    alistGet (clickKey 1)
        ((logUrlClick { redisFails := false, dbFails := false } 1 none none 0
          emptySysState).2.1.cache.counters) =
      some { value := 1, hasTtl := false } := by
  constructor
  · rfl
  · rfl

/-- Claim C5 (confirmed): the best-effort cache increment never blocks or
fails the durable click-event append.  `logUrlClick` succeeds exactly when
the durable insert succeeds (`dbFails = false`), whatever the Redis block
does, and in that case the click event is appended to `url_clicks`
regardless of the cache outcome. -/
theorem C5_click_success_iff_durable_insert (env : ClickEnv) (id : Nat)
    (ua ip : Option String) (now : Int) (st : SysState) :
    ((logUrlClick env id ua ip now st).1 = .ok ↔ env.dbFails = false) ∧
    ((logUrlClick env id ua ip now st).2.1.db.clicks =
      if env.dbFails then st.db.clicks
      else st.db.clicks ++
        [{ id := st.db.nextClickId
           shortened_url_id := id
           clicked_at := now
           user_agent := ua
           ip_address := ip }]) := by
  unfold logUrlClick
  cases hdb : env.dbFails <;> cases hr : env.redisFails <;>
    simp [clickEffect1]

/-- Claim C3 (confirmed): the resolver returns whatever the stores contain
without filtering by expiration: a cache hit returns the cached record
with the state unchanged; on a cache miss a record found in the durable
store is written back into the cache before being returned; `NotFound`
is reported only when neither store holds the code; and the caller
(`getUrlByCode`) checks `expires_at` itself, reporting an
expired-but-present record as `Gone` (410). -/
theorem C3_resolve_returns_store_contents (code : String) (now : Int)
    (st : SysState) :
    (∀ u, redisGetUrl code st.cache = some u →
      getShortenedUrlByCode code st = (some u, st)) ∧
    (redisGetUrl code st.cache = none → ∀ u, dbFindByCode code st.db = some u →
      getShortenedUrlByCode code st =
        (some u, { st with cache := redisSetUrl code u st.cache })) ∧
    (redisGetUrl code st.cache = none → dbFindByCode code st.db = none →
      getShortenedUrlByCode code st = (none, st)) ∧
    ((getShortenedUrlByCode code st).1 = none →
      redisGetUrl code st.cache = none ∧ dbFindByCode code st.db = none) ∧
    (∀ u st1, getShortenedUrlByCode code st = (some u, st1) →
      (isUrlExpired u now = true → getUrlByCode code now st = (.gone u, st1)) ∧
      (isUrlExpired u now = false → getUrlByCode code now st = (.ok u, st1))) := by
  constructor
  · intro u hu
    simp [getShortenedUrlByCode, hu]
  constructor
  · intro hc u hd
    simp [getShortenedUrlByCode, hc, hd]
  constructor
  · intro hc hd
    simp [getShortenedUrlByCode, hc, hd]
  constructor
  · intro h
    cases hc : redisGetUrl code st.cache with
    | some v => simp [getShortenedUrlByCode, hc] at h
    | none =>
      cases hd : dbFindByCode code st.db with
      | some v => simp [getShortenedUrlByCode, hc, hd] at h
      | none => exact ⟨rfl, rfl⟩
  · intro u st1 h
    constructor
    · intro hexp
      simp [getUrlByCode, h, hexp]
    · intro hexp
      simp [getUrlByCode, h, hexp]

/-- An expired record sitting in the cache for code `"abc"`. -/
def c3Rec : UrlRecord :=
  { id := 0
    original_url := "http://old.com"
    short_code := "abc"
    user_id := none
    expires_at := some 50
    createdAt := 0
    updatedAt := 0 }

def c3State : SysState :=
  { db := emptyDb
    cache := { urls := [(urlKey "abc", c3Rec)], counters := [] } }

/-- Witness for C3: at time 100 the cached record of `"abc"` is expired,
the resolver still returns it, and the caller reports it as `Gone`. -/
theorem C3_witness :
    getShortenedUrlByCode "abc" c3State = (some c3Rec, c3State) ∧
    getUrlByCode "abc" 100 c3State = (.gone c3Rec, c3State) := by
  have h := C3_resolve_returns_store_contents "abc" 100 c3State
  have h1 := h.1 c3Rec (by rfl)
  exact ⟨h1, (h.2.2.2.2 c3Rec c3State h1).1 (by rfl)⟩

/-- Claim C10 (confirmed): a code starting with `"api"` or equal to
`"favicon.ico"` makes `redirectToUrl` answer 404 immediately: the state is
returned untouched, the store-access flag is `false`, and no click is
recorded — whatever records the stores hold. -/
theorem C10_reserved_codes_short_circuit (env : ClickEnv) (code : String)
    (ua ip : Option String) (now : Int) (st : SysState)
    (h : jsStartsWith code "api" = true ∨ code = "favicon.ico") :
    redirectToUrl env code ua ip now st = (.apiNotFound, st, false) := by
  rcases h with h | h
  · simp [redirectToUrl, h]
  · subst h
    rfl

/-- A live allocated record whose code `"api1"` falls in the reserved
namespace. -/
def c10Rec : UrlRecord :=
  { id := 0
    original_url := "http://hidden.example"
    short_code := "api1"
    user_id := none
    expires_at := none
    createdAt := 0
    updatedAt := 0 }

def c10State : SysState :=
  { db := { urls := [c10Rec], clicks := [], nextUrlId := 1, nextClickId := 0 }
    cache := emptyCache }

/-- Witness for C10: even though an allocated record holds `"api1"`, the
redirect path answers 404 without touching the stores. -/
theorem C10_witness :
    redirectToUrl { redisFails := false, dbFails := false } "api1" none none 0
      c10State = (.apiNotFound, c10State, false) :=
  C10_reserved_codes_short_circuit { redisFails := false, dbFails := false }
    "api1" none none 0 c10State (Or.inl (by rfl))

/-- Claim C4 (confirmed): when the candidate code is held by no active
record but by an expired one, the allocator overwrites that record in
place: the result is `updatedRecord ex input now` — same `id`, same
`short_code`, same `createdAt`, new target URL, owner, expiration and
`updatedAt := now` — the table is updated by id so no row is inserted
(same length), and the cache entry for the code is deleted before the
fresh record is written into it. -/
theorem C4_expired_code_overwritten_in_place (fuel : Nat) (gen : Nat → String)
    (gi : Nat) (input : CreateShortenedUrlInput) (now : Int) (st : SysState)
    (ex : UrlRecord)
    (hactive : dbFindActiveByCode (allocCandidate gen gi input) now st.db = none)
    (hexpired : dbFindExpiredByCode (allocCandidate gen gi input) now st.db =
      some ex) :
    createShortenedUrl (fuel + 1) gen gi input now st =
      some (.ok (updatedRecord ex input now)
        { db := dbUpdateRecord (updatedRecord ex input now) st.db
          cache := redisSetUrl (allocCandidate gen gi input)
            (updatedRecord ex input now)
            (redisDelUrl (allocCandidate gen gi input) st.cache) }) ∧
    (updatedRecord ex input now).id = ex.id ∧
    (updatedRecord ex input now).short_code = ex.short_code ∧
    (updatedRecord ex input now).createdAt = ex.createdAt ∧
    (updatedRecord ex input now).original_url = input.original_url ∧
    (updatedRecord ex input now).user_id = jsOrNull input.user_id ∧
    (updatedRecord ex input now).expires_at = newExpiresAt input now ∧
    (updatedRecord ex input now).updatedAt = now ∧
    (dbUpdateRecord (updatedRecord ex input now) st.db).urls.length =
      st.db.urls.length := by
  refine ⟨?_, rfl, rfl, rfl, rfl, rfl, rfl, rfl, ?_⟩
  · simp only [createShortenedUrl, hactive, hexpired]
  · simp [dbUpdateRecord]

/-- The expired record occupying code `"abc"` in the C4 scenario. -/
def c4Ex : UrlRecord :=
  { id := 5
    original_url := "http://old.example"
    short_code := "abc"
    user_id := none
    expires_at := some 10
    createdAt := 1
    updatedAt := 1 }

def c4State : SysState :=
  { db := { urls := [c4Ex], clicks := [], nextUrlId := 6, nextClickId := 0 }
    cache := { urls := [(urlKey "abc", c4Ex)], counters := [] } }

def c4Input : CreateShortenedUrlInput :=
  { original_url := "http://new.example"
    user_id := none
    custom_code := some "abc"
    expires_in_days := none }

/-- Witness for C4: at time 100 the record holding `"abc"` is expired, and
allocation with the same requested code overwrites it in place. -/
theorem C4_witness :
    createShortenedUrl 1 (fun _ => "GGGGGGGG") 0 c4Input 100 c4State =
      some (.ok (updatedRecord c4Ex c4Input 100)
        { db := dbUpdateRecord (updatedRecord c4Ex c4Input 100) c4State.db
          cache := redisSetUrl "abc" (updatedRecord c4Ex c4Input 100)
            (redisDelUrl "abc" c4State.cache) }) :=
  (C4_expired_code_overwritten_in_place 0 (fun _ => "GGGGGGGG") 0 c4Input 100
    c4State c4Ex (by rfl) (by rfl)).1

/-- Claim C6 (confirmed): for `1 ≤ days ≤ 30`, `getDailyClickCounts`
returns exactly `days` pairs; the `i`-th pair is the calendar day
`today - days + 1 + i` with the count of that link's clicks on that day,
so every day of `[today - days + 1, today]` appears; the dates are
strictly ascending; and a link with no click events gets `days` entries
all with count 0. -/
theorem C6_daily_clicks_dense_ascending (linkId : Nat) (days : Nat)
    (today : Int) (db : Db) (h1 : 1 ≤ days) (h2 : days ≤ 30) :
    (getDailyClickCounts linkId days today db).length = days ∧
    (∀ i, i < days → (getDailyClickCounts linkId days today db)[i]? =
      some (today - (days : Int) + 1 + (i : Int),
            clicksOnDay db.clicks linkId (today - (days : Int) + 1 + (i : Int)))) ∧
    List.Pairwise (fun p q => p.1 < q.1)
      (getDailyClickCounts linkId days today db) ∧
    ((db.clicks.filter fun c => c.shortened_url_id == linkId) = [] →
      ∀ p ∈ getDailyClickCounts linkId days today db, p.2 = 0) := by
  refine ⟨?_, ?_, ?_, ?_⟩
  · rw [getDailyClickCounts, List.length_map, List.length_range]
  · intro i hi
    rw [getDailyClickCounts, List.getElem?_map, List.getElem?_range hi]
    rfl
  · rw [getDailyClickCounts, List.pairwise_iff_getElem]
    intro i j hi hj hij
    simp only [List.length_map, List.length_range] at hi hj
    simp only [List.getElem_map, List.getElem_range]
    omega
  · intro hf p hp
    rw [getDailyClickCounts, List.mem_map] at hp
    obtain ⟨i, _, rfl⟩ := hp
    simp only [clicksOnDay]
    have hnil : (db.clicks.filter fun c =>
        c.shortened_url_id == linkId &&
        dateOfMs c.clicked_at == (today - (days : Int) + 1 + (i : Int))) = [] := by
      rw [List.filter_eq_nil_iff] at hf ⊢
      intro c hc
      have := hf c hc
      simp_all
    rw [hnil]
    rfl

/-- An allocation that never terminates: for every fuel the embedded
recursion of `createShortenedUrl` is still running (neither a record nor
an error has been produced). -/
def allocDiverges (gen : Nat → String) (input : CreateShortenedUrlInput)
    (now : Int) (st : SysState) : Prop :=
  ∀ fuel gi, createShortenedUrl fuel gen gi input now st = none

def c2Input : CreateShortenedUrlInput :=
  { original_url := "http://fresh.example"
    user_id := none
    custom_code := none
    expires_in_days := none }

/-- A never-expiring record holding the code `"XXXXXXXX"`. -/
def c2Active : UrlRecord :=
  { id := 0
    original_url := "http://a.example"
    short_code := "XXXXXXXX"
    user_id := none
    expires_at := none
    createdAt := 0
    updatedAt := 0 }

def c2State : SysState :=
  { db := { urls := [c2Active], clicks := [], nextUrlId := 1, nextClickId := 0 }
    cache := emptyCache }

/-- Claim C2 counterexample: the retry on generated-code collision is NOT
bounded and exhaustion does NOT yield an `AllocationExhausted` error.
`createShortenedUrl` recurses on itself with no counter; when every
generated candidate collides with an active record (here the generator
keeps drawing `"XXXXXXXX"`, held by a never-expiring record) the call
neither succeeds nor errors at any retry depth — it diverges. -/
theorem C2_counterexample_unbounded_recursion :
    allocDiverges (fun _ => "XXXXXXXX") c2Input 0 c2State := by
  intro fuel
  induction fuel with
  | zero =>
    intro gi
    rfl
  | succ n ih =>
    intro gi
    exact ih (gi + 1)

/-- Collisions of generated candidates with active records only shift the
generator stream: if the first free candidate is drawn at offset `k`, the
allocation succeeds after exactly `k` discarded candidates and the
resulting record carries that free code. -/
lemma createShortenedUrl_first_free_generated_code (gen : Nat → String)
    (input : CreateShortenedUrlInput) (now : Int) (st : SysState)
    (hcustom : jsOrNull input.custom_code = none) :
    ∀ (k gi : Nat),
      (∀ j, j < k → (dbFindActiveByCode (gen (gi + j)) now st.db).isSome = true) →
      dbFindActiveByCode (gen (gi + k)) now st.db = none →
      ∃ r st2, createShortenedUrl (k + 1) gen gi input now st =
          some (.ok r st2) ∧ r.short_code = gen (gi + k) := by
  intro k
  induction k with
  | zero =>
    intro gi _ hfree
    rw [Nat.add_zero] at hfree
    rw [Nat.add_zero]
    cases hexp : dbFindExpiredByCode (gen gi) now st.db with
    | some ex =>
      have hfind : List.find?
          (fun u => u.short_code == gen gi && rowExpiredAt now u) st.db.urls =
          some ex := by
        simpa [dbFindExpiredByCode] using hexp
      have hp := List.find?_some hfind
      have hcode : ex.short_code = gen gi := by
        simp only [Bool.and_eq_true, beq_iff_eq] at hp
        exact hp.1
      exact ⟨updatedRecord ex input now,
        { db := dbUpdateRecord (updatedRecord ex input now) st.db
          cache := redisSetUrl (gen gi) (updatedRecord ex input now)
            (redisDelUrl (gen gi) st.cache) },
        by simp only [createShortenedUrl, allocCandidate, hcustom, hfree, hexp],
        hcode⟩
    | none =>
      exact ⟨insertedRecord (gen gi) input now st.db.nextUrlId,
        { db := { st.db with
            urls := st.db.urls ++ [insertedRecord (gen gi) input now st.db.nextUrlId]
            nextUrlId := st.db.nextUrlId + 1 }
          cache := redisSetUrl (gen gi)
            (insertedRecord (gen gi) input now st.db.nextUrlId) st.cache },
        by simp only [createShortenedUrl, allocCandidate, hcustom, hfree, hexp],
        rfl⟩
  | succ k ih =>
    intro gi hcoll hfree
    have h0 : (dbFindActiveByCode (gen gi) now st.db).isSome = true := by
      have h := hcoll 0 (Nat.succ_pos k)
      rwa [Nat.add_zero] at h
    obtain ⟨a, ha⟩ := Option.isSome_iff_exists.mp h0
    have hstep : createShortenedUrl (k + 1 + 1) gen gi input now st =
        createShortenedUrl (k + 1) gen (gi + 1) input now st := by
      simp only [createShortenedUrl, allocCandidate, hcustom, ha]
    rw [hstep]
    have hcoll2 : ∀ j, j < k →
        (dbFindActiveByCode (gen (gi + 1 + j)) now st.db).isSome = true := by
      intro j hj
      have e : gi + 1 + j = gi + (j + 1) := by omega
      rw [e]
      exact hcoll (j + 1) (by omega)
    have hfree2 : dbFindActiveByCode (gen (gi + 1 + k)) now st.db = none := by
      have e : gi + 1 + k = gi + (k + 1) := by omega
      rw [e]
      exact hfree
    obtain ⟨r, st2, heq, hcode⟩ := ih (gi + 1) hcoll2 hfree2
    refine ⟨r, st2, heq, ?_⟩
    rw [hcode]
    congr 1
    omega

/-- Claim C2 (amended): on a generated-code collision with an active record,
the allocator discards the candidate and retries with a fresh generated
code, with NO bound on the number of retries and no exhaustion error: the
recursion terminates exactly when some generated candidate is free of
active records, succeeding with that candidate after discarding all of the
colliding earlier draws (and, per the separate counterexample, diverges
when every candidate collides). -/
theorem C2_retry_until_free_generated_code (gen : Nat → String)
    (input : CreateShortenedUrlInput) (now : Int) (st : SysState) (k : Nat)
    (hcustom : jsOrNull input.custom_code = none)
    (hcoll : ∀ j, j < k → (dbFindActiveByCode (gen j) now st.db).isSome = true)
    (hfree : dbFindActiveByCode (gen k) now st.db = none) :
    ∃ r st2, createShortenedUrl (k + 1) gen 0 input now st =
        some (.ok r st2) ∧ r.short_code = gen k := by
  have h := createShortenedUrl_first_free_generated_code gen input now st
    hcustom k 0 (by intro j hj; simpa using hcoll j hj) (by simpa using hfree)
  simpa using h

/-- The generator draw used by the C2 witness: first the colliding code,
then a fresh one. -/
def c2Gen : Nat → String := fun i => if i == 0 then "XXXXXXXX" else "YYYYYYYY"

/-- Witness for C2 (amended): with `"XXXXXXXX"` held by an active record,
the first draw collides, the second draw `"YYYYYYYY"` is free, and
allocation with two units of fuel succeeds with it. -/
theorem C2_witness :
    ∃ r st2, createShortenedUrl 2 c2Gen 0 c2Input 0 c2State =
        some (.ok r st2) ∧ r.short_code = c2Gen 1 := by
  refine C2_retry_until_free_generated_code c2Gen c2Input 0 c2State 1
    (by rfl) ?_ (by rfl)
  intro j hj
  have hj0 : j = 0 := by omega
  subst hj0
  rfl

/-- Witness for C6: seven dense zero-filled buckets for a link with no
events. -/
theorem C6_witness :
    (getDailyClickCounts 1 7 19000 emptyDb).length = 7 ∧
    ∀ p ∈ getDailyClickCounts 1 7 19000 emptyDb, p.2 = 0 := by
  have h := C6_daily_clicks_dense_ascending 1 7 19000 emptyDb (by decide)
    (by decide)
  exact ⟨h.1, h.2.2.2 (by rfl)⟩

/-- Filtering out an element that is present strictly shrinks a list. -/
lemma length_filter_lt {α : Type} (p : α → Bool) (l : List α) (a : α)
    (ha : a ∈ l) (hpa : p a = false) : (l.filter p).length < l.length := by
  induction l with
  | nil => cases ha
  | cons x xs ih =>
    rcases List.mem_cons.mp ha with rfl | hmem
    · rw [List.filter_cons, hpa]
      simp only [Bool.false_eq_true, if_false, List.length_cons]
      exact Nat.lt_succ_of_le (List.length_filter_le p xs)
    · rw [List.filter_cons]
      cases hx : p x
      · simp only [Bool.false_eq_true, if_false, List.length_cons]
        exact Nat.lt_succ_of_lt (ih hmem)
      · simp only [if_true, List.length_cons]
        exact Nat.succ_lt_succ (ih hmem)

/-- Deleting a key from an association list makes lookups of it miss. -/
lemma alistGet_del_self {α : Type} (k : String) (l : List (String × α)) :
    alistGet k (alistDel k l) = none := by
  rw [alistGet, Option.map_eq_none', List.find?_eq_none]
  intro p hp
  have h2 := (List.mem_filter.mp hp).2
  simp only [bne_iff_ne, ne_eq] at h2
  simpa using h2

/-- Claim C9 (confirmed): `deleteShortenedUrl` returns `true` exactly when
a record with the id exists; a `false` answer leaves the state untouched;
and on success every click event of the link is removed (the
`ON DELETE CASCADE` of `url_clicks`), the cache entry of the link's code is
invalidated, and — the code being unique in the table, the schema's
`UNIQUE(short_code)` constraint — a subsequent resolve of that code
reports `NotFound`. -/
theorem C9_delete_cascades_and_invalidates (id : Nat) (st : SysState) :
    ((deleteShortenedUrl id st).1 = true ↔ ∃ u ∈ st.db.urls, u.id = id) ∧
    ((deleteShortenedUrl id st).1 = false →
      deleteShortenedUrl id st = (false, st)) ∧
    (∀ url, dbFindById id st.db = some url →
      (∀ c ∈ (deleteShortenedUrl id st).2.db.clicks, c.shortened_url_id ≠ id) ∧
      redisGetUrl url.short_code (deleteShortenedUrl id st).2.cache = none ∧
      ((∀ v ∈ st.db.urls, v.short_code = url.short_code → v.id = id) →
        getShortenedUrlByCode url.short_code (deleteShortenedUrl id st).2 =
          (none, (deleteShortenedUrl id st).2))) := by
  cases hfind : dbFindById id st.db with
  | none =>
    have hfindn : List.find? (fun u => u.id == id) st.db.urls = none := by
      simpa [dbFindById] using hfind
    have hnone : ∀ u ∈ st.db.urls, ¬(u.id = id) := by
      intro u hu
      have h := List.find?_eq_none.mp hfindn u hu
      simpa using h
    refine ⟨?_, ?_, ?_⟩
    · simp only [deleteShortenedUrl, hfind, Bool.false_eq_true, false_iff]
      rintro ⟨u, hu, h⟩
      exact hnone u hu h
    · intro _
      simp only [deleteShortenedUrl, hfind]
    · intro url hurl
      simp at hurl
  | some url0 =>
    have hfind2 : List.find? (fun u => u.id == id) st.db.urls = some url0 := by
      simpa [dbFindById] using hfind
    have hmem : url0 ∈ st.db.urls := List.mem_of_find?_eq_some hfind2
    have hid : url0.id = id := by
      have h := List.find?_some hfind2
      simpa using h
    have hlt : (st.db.urls.filter fun u => u.id != id).length <
        st.db.urls.length := by
      refine length_filter_lt _ _ url0 hmem ?_
      simp [hid]
    have hcond :
        st.db.urls.length - (st.db.urls.filter fun u => u.id != id).length >
          0 := by omega
    have hD : deleteShortenedUrl id st = (true,
        { db := { st.db with
            urls := st.db.urls.filter fun u => u.id != id
            clicks := st.db.clicks.filter fun c => c.shortened_url_id != id }
          cache := redisDelUrl url0.short_code st.cache }) := by
      simp only [deleteShortenedUrl, hfind]
      rw [if_pos hcond]
    have hcacheMiss :
        redisGetUrl url0.short_code (redisDelUrl url0.short_code st.cache) =
          none := by
      simp only [redisGetUrl, redisDelUrl]
      exact alistGet_del_self _ _
    refine ⟨?_, ?_, ?_⟩
    · rw [hD]
      simp only [true_iff]
      exact ⟨url0, hmem, hid⟩
    · rw [hD]
      intro h
      cases h
    · intro url hurl
      obtain rfl : url0 = url := Option.some.inj hurl
      refine ⟨?_, ?_, ?_⟩
      · rw [hD]
        intro c hc
        have h2 := (List.mem_filter.mp hc).2
        simpa [bne_iff_ne] using h2
      · rw [hD]
        exact hcacheMiss
      · intro huniq
        rw [hD]
        have hdb : dbFindByCode url0.short_code
            { st.db with
              urls := st.db.urls.filter fun u => u.id != id
              clicks := st.db.clicks.filter fun c =>
                c.shortened_url_id != id } = none := by
          rw [dbFindByCode, List.find?_eq_none]
          intro v hv
          have hvmem := (List.mem_filter.mp hv).1
          have hvne : v.id ≠ id := by
            have h2 := (List.mem_filter.mp hv).2
            simpa [bne_iff_ne] using h2
          intro hbeq
          have hvcode : v.short_code = url0.short_code := by simpa using hbeq
          exact hvne (huniq v hvmem hvcode)
        simp only [getShortenedUrlByCode, hcacheMiss, hdb]

/-- A record with id 3 holding code `"abc"`, one click event referencing
it, and a live cache entry: the C9 scenario. -/
def c9Rec : UrlRecord :=
  { id := 3
    original_url := "http://target.example"
    short_code := "abc"
    user_id := none
    expires_at := none
    createdAt := 0
    updatedAt := 0 }

def c9Click : UrlClick :=
  { id := 0
    shortened_url_id := 3
    clicked_at := 7
    user_agent := none
    ip_address := none }

def c9State : SysState :=
  { db := { urls := [c9Rec], clicks := [c9Click], nextUrlId := 4, nextClickId := 1 }
    cache := { urls := [(urlKey "abc", c9Rec)], counters := [] } }

/-- Witness for C9: deleting id 3 succeeds, its click events are gone, and
resolving `"abc"` afterwards reports `NotFound`. -/
theorem C9_witness :
    (deleteShortenedUrl 3 c9State).1 = true ∧
    (∀ c ∈ (deleteShortenedUrl 3 c9State).2.db.clicks,
      c.shortened_url_id ≠ 3) ∧
    getShortenedUrlByCode "abc" (deleteShortenedUrl 3 c9State).2 =
      (none, (deleteShortenedUrl 3 c9State).2) := by
  have h := C9_delete_cascades_and_invalidates 3 c9State
  have h3 := h.2.2 c9Rec (by rfl)
  exact ⟨h.1.mpr ⟨c9Rec, by decide⟩, h3.1, h3.2.2 (by decide)⟩

end Shortly
